import Mathlib

/-!
Verification development for the custody-schedule engine
(`custom_components/custody_schedule/schedule.py`).

Shallow embedding conventions:
* Timestamps are plain integers (`Int`) counting seconds in the
  local timezone since 1970-01-01 00:00 (the engine converts everything to
  one local zone via `dt_util.as_local`, so a single linear time scale is
  faithful; sub-second components never survive the engine's
  `_apply_time`/`datetime.combine` stamping, hence second resolution).
* Calendar dates are plain integers counting days since 1970-01-01
  (a Thursday).  `civilFromDays`/`daysFromCivil` implement the standard
  proleptic-Gregorian conversion used by Python's `datetime.date`.
* Python `//` and `%` on integers are floored, which for the positive
  divisors used here coincides with `Int.ediv`/`Int.emod`.
* Python `while` loops are modelled with an explicit fuel argument large
  enough for every reachable input; exhausting the fuel merely truncates
  the generated window list, which is sound for the properties proved here.
* `dt_util.parse_datetime` / `parse_date` (external Home Assistant
  helpers) are modelled as total functions returning `Option`,
  `none` standing for an unparseable or missing value.
-/

namespace Custody

/-- Date part of a timestamp, `datetime.date()`.  On `Int`, Lean's `/` is
Euclidean division, which agrees with Python's floored `//` for the
positive divisors used throughout this file. -/
def dayOfDateTime (t : Int) : Int := t / 86400

/-- Seconds elapsed since local midnight of the timestamp's date. -/
def secondOfDay (t : Int) : Int := t % 86400

/-- Python `date.weekday()`: Monday = 0 … Sunday = 6.  1970-01-01 was a
Thursday (3). -/
def weekdayOfDay (d : Int) : Int := (d + 3) % 7

/-- Lowercase a character list (Python `str.lower`; ASCII letters, which
covers every string this development evaluates). -/
def lowerChars : List Char → List Char
  | [] => []
  | c :: rest => c.toLower :: lowerChars rest

/-- Python `str.lower`. -/
def strToLower (s : String) : String := String.mk (lowerChars s.data)

/-- Substring test on character lists. -/
def containsChars : List Char → List Char → Bool
  | [], pat => pat.isEmpty
  | a :: rest, pat => pat.isPrefixOf (a :: rest) || containsChars rest pat

/-- Python `pat in s` on strings. -/
def strContains (s pat : String) : Bool := containsChars s.data pat.data

/-- Python `datetime.combine(date, time)` with a whole-minute time of day
(`tod` counts minutes after midnight). -/
def combineDayTime (d : Int) (tod : Nat) : Int := d * 86400 + (tod : Int) * 60

/-- `CustodyScheduleManager._apply_time`: replace hour/minute of a timestamp
with the configured time of day, zeroing seconds and microseconds. -/
def applyTime (t : Int) (tod : Nat) : Int := combineDayTime (dayOfDateTime t) tod

/-- Gregorian civil date (year, month, day-of-month) of a day number
(Howard Hinnant's `civil_from_days` algorithm, as implemented by Python's
`datetime.date.fromordinal` family). -/
def civilFromDays (z0 : Int) : Int × Int × Int :=
  let z := z0 + 719468
  let era := z / 146097
  let doe := z - era * 146097
  let yoe := (doe - doe / 1460 + doe / 36524 - doe / 146096) / 365
  let y := yoe + era * 400
  let doy := doe - (365 * yoe + yoe / 4 - yoe / 100)
  let mp := (5 * doy + 2) / 153
  let dom := doy - (153 * mp + 2) / 5 + 1
  let m := mp + (if mp < 10 then 3 else -9)
  (if m ≤ 2 then y + 1 else y, m, dom)

/-- Int number of a Gregorian civil date (Hinnant's `days_from_civil`). -/
def daysFromCivil (y0 m d : Int) : Int :=
  let y := y0 - (if m ≤ 2 then 1 else 0)
  let era := y / 400
  let yoe := y - era * 400
  let doy := (153 * (m + (if m > 2 then -3 else 9)) + 2) / 5 + d - 1
  let doe := yoe * 365 + yoe / 4 - yoe / 100 + doy
  era * 146097 + doe - 719468

/-- Python `date.year` of a day number. -/
def yearOfDay (d : Int) : Int := (civilFromDays d).1

/-- Python `date.month` of a day number. -/
def monthOfDay (d : Int) : Int := (civilFromDays d).2.1

/-- ISO-8601 week number of a day number (`date.isocalendar().week`):
the week of a date is the week of its Thursday, numbered from the first
week of that Thursday's year. -/
def isoWeekOfDay (d : Int) : Int :=
  let thursday := d - weekdayOfDay d + 3
  let y := yearOfDay thursday
  (thursday - daysFromCivil y 1 1) / 7 + 1

/-- Easter Sunday via the Anonymous Gregorian algorithm (`_easter_date`). -/
def easterDate (year : Int) : Int :=
  let a := year % 19
  let b := year / 100
  let c := year % 100
  let d := b / 4
  let e := b % 4
  let f := (b + 8) / 25
  let g := (b - f + 1) / 3
  let h := (19 * a + b - d - g + 15) % 30
  let i := c / 4
  let k := c % 4
  let l := (32 + 2 * e + 2 * i - h - k) % 7
  let m := (a + 11 * h + 22 * l) / 451
  let month := (h + l - 7 * m + 114) / 31
  let day := (h + l - 7 * m + 114) % 31 + 1
  daysFromCivil year month day

/-- French public holidays of a year (`get_french_holidays`), as a list of
day numbers (the Python set is only used for membership tests). -/
def getFrenchHolidays (year : Int) : List Int :=
  let easter := easterDate year
  [daysFromCivil year 1 1, daysFromCivil year 5 1, daysFromCivil year 5 8,
   daysFromCivil year 7 14, daysFromCivil year 8 15, daysFromCivil year 11 1,
   daysFromCivil year 11 11, daysFromCivil year 12 25,
   easter + 1, easter + 39, easter + 50]

/-- Sanity anchors for the calendar arithmetic. -/
theorem daysFromCivil_epoch : daysFromCivil 1970 1 1 = 0 := by decide

theorem weekdayOfDay_epoch : weekdayOfDay 0 = 3 := by decide

theorem civilFromDays_roundtrip_sample :
    civilFromDays (daysFromCivil 2025 12 20) = (2025, 12, 20) := by decide

theorem isoWeek_sample : isoWeekOfDay (daysFromCivil 2025 12 15) = 51 := by decide

/-- Window representing when the child is present (`CustodyWindow`;
`stop` is the Python field `end`, which is a reserved word in Lean). -/
structure CustodyWindow where
  start : Int
  stop : Int
  label : String
  source : String := "pattern"
deriving DecidableEq, Repr

/-- School-holiday record as fetched from the provider (`SchoolHoliday`);
`stop` is the Python field `end`. -/
structure SchoolHoliday where
  name : String
  start : Int
  stop : Int
deriving DecidableEq, Repr

/-- One entry of the `exceptions_recurring` option, fields already parsed:
`weekday` is `none` when `int(item.get("weekday"))` raised, date bounds are
`none` when absent or unparseable, and times are the (total, defaulting)
result of `_parse_time` in minutes after midnight. -/
structure RecurringException where
  weekday : Option Int
  startTime : Nat
  endTime : Nat
  startDate : Option Int := none
  endDate : Option Int := none
  label : String := "Exception récurrente"
deriving DecidableEq, Repr

/-- One entry of the `custom_rules` option with its two
`dt_util.parse_datetime` results (`none` for missing/unparseable). -/
structure CustomRule where
  start : Option Int
  stop : Option Int
  label : String := "Custom rule"
deriving DecidableEq, Repr

/-- Configuration snapshot consumed by the manager.  String-valued rule
options use `Option String`, `none` standing for Python `None`, a missing
key, or the empty string (all falsy in the `if july_rule:` tests; the
config flow normalises `""` to `None`).  The `reference_year_custody` /
`reference_year_vacations` fields carry the resolved value of the
`config.get(specific, config.get("reference_year", "even"))` chains.
Times are minutes after midnight as produced by `_parse_time`. -/
structure Config where
  custodyType : String := "alternate_week"
  referenceYearCustody : String := "even"
  referenceYearVacations : String := "even"
  startDay : String := "monday"
  arrivalTime : Nat := 480
  departureTime : Nat := 1140
  zone : Option String := none
  vacationSplitMode : String := "odd_first"
  summerRule : Option String := none
  julyRule : Option String := none
  augustRule : Option String := none
  customRules : List CustomRule := []
  exceptionsRecurring : List RecurringException := []
deriving Repr

/-- Modelled from the spec: `SUMMER_RULES` is imported by `schedule.py`
from `const.py`, but the snapshot's `const.py` does not define it.  The
spec (§6) lists the half-month summer rules and `config_flow.py` builds
its summer-rule selector from exactly these four values. -/
def SUMMER_RULES : List String :=
  ["july_first_half", "july_second_half", "august_first_half", "august_second_half"]

/-- Walk a date backwards to the nearest day with the given weekday
(the `while date.weekday() != target: date -= 1` loops of
`_effective_holiday_bounds`; at most six steps are ever taken, so a fuel
of 7 is exact). -/
def prevWeekdayFrom (fuel : Nat) (d : Int) (target : Int) : Int :=
  match fuel with
  | 0 => d
  | fuel + 1 => if weekdayOfDay d = target then d else prevWeekdayFrom fuel (d - 1) target

/-- First part of `CustodyScheduleManager._effective_holiday_bounds`: the
Friday/Sunday snapped bounds, before the inversion fallback.  The end
correction treats an end at exactly midnight as the exclusive "reprise"
day. -/
def snappedBounds (h : SchoolHoliday) (arrival departure : Nat) : Int × Int :=
  let startDate := dayOfDateTime h.start
  let endDate0 := dayOfDateTime h.stop
  let endDate := if secondOfDay h.stop = 0 then endDate0 - 1 else endDate0
  let effStartDate := prevWeekdayFrom 7 startDate 4
  let effEndDate := prevWeekdayFrom 7 endDate 6
  (combineDayTime effStartDate arrival, combineDayTime effEndDate departure)

/-- Second part of `_effective_holiday_bounds`: the safety fallback that
stamps the raw bounds directly whenever the snapped interval is
inverted or empty. -/
def effectiveStartEnd (h : SchoolHoliday) (arrival departure : Nat) : Int × Int :=
  let raw := snappedBounds h arrival departure
  if raw.2 ≤ raw.1 then (applyTime h.start arrival, applyTime h.stop departure) else raw

/-- `CustodyScheduleManager._effective_holiday_bounds`: effective custody
bounds (previous Friday at arrival time, previous Sunday at departure
time, exact midpoint) of a school holiday. -/
def effectiveHolidayBounds (h : SchoolHoliday) (arrival departure : Nat) :
    Int × Int × Int :=
  let se := effectiveStartEnd h arrival departure
  (se.1, se.2, se.1 + (se.2 - se.1) / 2)

/-- Both effective bounds are whole minutes, so their difference is even
and the midpoint splits it exactly. -/
theorem midpoint_halves (s e : Int) (hs : s % 60 = 0) (he : e % 60 = 0) :
    (s + (e - s) / 2) - s = e - (s + (e - s) / 2) := by
  obtain ⟨a, ha⟩ := Int.dvd_of_emod_eq_zero hs
  obtain ⟨b, hb⟩ := Int.dvd_of_emod_eq_zero he
  have h2 : e - s = 2 * (30 * (b - a)) := by rw [ha, hb]; ring
  rw [h2, Int.mul_ediv_cancel_left _ (by norm_num)]
  rw [ha, hb]; ring

theorem combineDayTime_emod (d : Int) (tod : Nat) : combineDayTime d tod % 60 = 0 := by
  have h : combineDayTime d tod = 60 * (d * 1440 + (tod : Int)) := by
    simp only [combineDayTime]; ring
  rw [h]
  exact Int.mul_emod_right 60 _

theorem applyTime_emod (t : Int) (tod : Nat) : applyTime t tod % 60 = 0 :=
  combineDayTime_emod _ _

theorem effectiveStartEnd_fst_emod (h : SchoolHoliday) (arrival departure : Nat) :
    (effectiveStartEnd h arrival departure).1 % 60 = 0 := by
  simp only [effectiveStartEnd]
  split
  case isTrue _ => exact applyTime_emod _ _
  case isFalse _ => exact combineDayTime_emod _ _

theorem effectiveStartEnd_snd_emod (h : SchoolHoliday) (arrival departure : Nat) :
    (effectiveStartEnd h arrival departure).2 % 60 = 0 := by
  simp only [effectiveStartEnd]
  split
  case isTrue _ => exact applyTime_emod _ _
  case isFalse _ => exact combineDayTime_emod _ _

/-- C7: for every input holiday and arrival/departure times, the effective
bounds satisfy exact midpoint symmetry, `midpoint - effectiveStart =
effectiveEnd - midpoint`, the midpoint being the literal temporal half of
the effective interval (its time-of-day component preserved, not snapped
to a day boundary). -/
theorem effectiveHolidayBounds_midpoint_symm (h : SchoolHoliday) (arrival departure : Nat) :
    (effectiveHolidayBounds h arrival departure).2.2 -
      (effectiveHolidayBounds h arrival departure).1 =
    (effectiveHolidayBounds h arrival departure).2.1 -
      (effectiveHolidayBounds h arrival departure).2.2 :=
  midpoint_halves _ _ (effectiveStartEnd_fst_emod h arrival departure)
    (effectiveStartEnd_snd_emod h arrival departure)

/-- A holiday whose raw end precedes its raw start: 2025-01-15 12:00 to
2025-01-10 12:00. -/
def invertedHoliday : SchoolHoliday :=
  { name := "Broken holiday"
    start := daysFromCivil 2025 1 15 * 86400 + 43200
    stop := daysFromCivil 2025 1 10 * 86400 + 43200 }

/-- C4: on a holiday whose raw end precedes its raw start the
Friday/Sunday snapping yields an inverted interval, the fallback stamps
the raw bounds directly, and the result is still inverted:
`effectiveEnd < effectiveStart`, contradicting the claimed guarantee. -/
theorem effectiveHolidayBounds_inverted_on_bad_input :
    (effectiveHolidayBounds invertedHoliday 480 1140).2.1 <
      (effectiveHolidayBounds invertedHoliday 480 1140).1 := by decide

/-- Concatenation of the per-element results of a list traversal
(the accumulating `for` loops of the generators). -/
def concatMap (f : α → List β) : List α → List β
  | [] => []
  | x :: xs => f x ++ concatMap f xs

theorem mem_concatMap {f : α → List β} {l : List α} {b : β} :
    b ∈ concatMap f l ↔ ∃ a ∈ l, b ∈ f a := by
  induction l with
  | nil => simp [concatMap]
  | cons x xs ih => simp [concatMap, ih]

/-- `CustodyScheduleManager._is_summer_break`: the holiday name contains
the word for summer, or either raw bound falls in July/August. -/
def isSummerBreak (h : SchoolHoliday) : Bool :=
  strContains (strToLower h.name) "été" ||
    (monthOfDay (dayOfDateTime h.start) = 7 || monthOfDay (dayOfDateTime h.start) = 8) ||
    (monthOfDay (dayOfDateTime h.stop) = 7 || monthOfDay (dayOfDateTime h.stop) = 8)

/-- `CustodyScheduleManager._force_vacation_end`: snap an end falling on a
Monday back to the previous Sunday at departure time (both Python branches
move one day back; the first additionally requires hour = minute = 0,
i.e. a second-of-day below 60). -/
def forceVacationEnd (officialEnd : Int) (departure : Nat) : Int :=
  if weekdayOfDay (dayOfDateTime officialEnd) = 0 ∧ secondOfDay officialEnd < 60 then
    applyTime (officialEnd - 86400) departure
  else if weekdayOfDay (dayOfDateTime officialEnd) = 0 then
    applyTime (officialEnd - 86400) departure
  else
    applyTime officialEnd departure

/-- Intervals built by `CustodyScheduleManager._summer_windows` before its
final validity filter, as (start, stop, label) triples — every branch of
the Python function appends windows with source `summer`, so the source
tag is factored into `summerWindows` below.  One branch per recognized
summer rule, each emitting at most one interval. -/
def summerWindowsRaw (cfg : Config) (h : SchoolHoliday) (rule : String) :
    List (Int × Int × String) :=
  let b := effectiveHolidayBounds h cfg.arrivalTime cfg.departureTime
  let start := b.1
  let stop := b.2.1
  let y := yearOfDay (dayOfDateTime start)
  let isEvenYear : Bool := decide (y % 2 = 0)
  let refYear := cfg.referenceYearVacations
  let refYearLabel := if refYear = "even" then "paire" else "impaire"
  let yearLabel := if isEvenYear then "paire" else "impaire"
  if rule = "july_even" then
    if isEvenYear then
      let julyStart := daysFromCivil y 7 1 * 86400
      let julyEnd := daysFromCivil y 7 31 * 86400 + 86399
      if start ≤ julyEnd ∧ julyStart ≤ stop then
        [(applyTime (max start julyStart) cfg.arrivalTime,
          applyTime (min stop julyEnd) cfg.departureTime,
          "Vacances scolaires - Juillet complet (années paires)")]
      else []
    else []
  else if rule = "july_odd" then
    if !isEvenYear then
      let julyStart := daysFromCivil y 7 1 * 86400
      let julyEnd := daysFromCivil y 7 31 * 86400 + 86399
      if start ≤ julyEnd ∧ julyStart ≤ stop then
        [(applyTime (max start julyStart) cfg.arrivalTime,
          applyTime (min stop julyEnd) cfg.departureTime,
          "Vacances scolaires - Juillet complet (années impaires)")]
      else []
    else []
  else if rule = "august_even" then
    if isEvenYear then
      let augustStart := daysFromCivil y 8 1 * 86400
      let augustEnd := daysFromCivil y 8 31 * 86400 + 86399
      if start ≤ augustEnd ∧ augustStart ≤ stop then
        [(applyTime (max start augustStart) cfg.arrivalTime,
          forceVacationEnd (min stop augustEnd) cfg.departureTime,
          "Vacances scolaires - Août complet (années paires)")]
      else []
    else []
  else if rule = "august_odd" then
    if !isEvenYear then
      let augustStart := daysFromCivil y 8 1 * 86400
      let augustEnd := daysFromCivil y 8 31 * 86400 + 86399
      if start ≤ augustEnd ∧ augustStart ≤ stop then
        [(applyTime (max start augustStart) cfg.arrivalTime,
          forceVacationEnd (min stop augustEnd) cfg.departureTime,
          "Vacances scolaires - Août complet (années impaires)")]
      else []
    else []
  else if rule = "july_first_half" then
    if (refYear = "even" ∧ !isEvenYear) ∨ (refYear = "odd" ∧ isEvenYear) then
      let windowStart := daysFromCivil y 7 1 * 86400
      let windowEnd := daysFromCivil y 7 15 * 86400 + 86399
      if start ≤ windowEnd ∧ windowStart ≤ stop then
        [(applyTime (max start windowStart) cfg.arrivalTime,
          min stop windowEnd,
          "Vacances scolaires - Juillet (1ère moitié, réf=" ++ refYearLabel ++
            ", année=" ++ yearLabel ++ ")")]
      else []
    else []
  else if rule = "july_second_half" then
    if (refYear = "even" ∧ isEvenYear) ∨ (refYear = "odd" ∧ !isEvenYear) then
      let windowStart := daysFromCivil y 7 16 * 86400
      let windowEnd := daysFromCivil y 7 31 * 86400 + 86399
      if start ≤ windowEnd ∧ windowStart ≤ stop then
        [(applyTime (max start windowStart) cfg.arrivalTime,
          applyTime (min stop windowEnd) cfg.departureTime,
          "Vacances scolaires - Juillet (2ème moitié, réf=" ++ refYearLabel ++
            ", année=" ++ yearLabel ++ ")")]
      else []
    else []
  else if rule = "august_first_half" then
    if (refYear = "even" ∧ !isEvenYear) ∨ (refYear = "odd" ∧ isEvenYear) then
      let windowStart := daysFromCivil y 8 1 * 86400
      let windowEnd := daysFromCivil y 8 15 * 86400 + 86399
      if start ≤ windowEnd ∧ windowStart ≤ stop then
        [(applyTime (max start windowStart) cfg.arrivalTime,
          min stop windowEnd,
          "Vacances scolaires - Août (1ère moitié, réf=" ++ refYearLabel ++
            ", année=" ++ yearLabel ++ ")")]
      else []
    else []
  else if rule = "august_second_half" then
    if (refYear = "even" ∧ isEvenYear) ∨ (refYear = "odd" ∧ !isEvenYear) then
      let windowStart := daysFromCivil y 8 16 * 86400
      let windowEnd := daysFromCivil y 8 31 * 86400 + 86399
      if start ≤ windowEnd ∧ windowStart ≤ stop then
        [(applyTime (max start windowStart) cfg.arrivalTime,
          forceVacationEnd (min stop windowEnd) cfg.departureTime,
          "Vacances scolaires - Août (2ème moitié, réf=" ++ refYearLabel ++
            ", année=" ++ yearLabel ++ ")")]
      else []
    else []
  else []

/-- `CustodyScheduleManager._summer_windows`: the branch output tagged
with source `summer`, then the final `valid_windows` filter keeping only
non-empty intervals. -/
def summerWindows (cfg : Config) (h : SchoolHoliday) (rule : String) : List CustodyWindow :=
  ((summerWindowsRaw cfg h rule).map
      (fun t => { start := t.1, stop := t.2.1, label := t.2.2, source := "summer" })).filter
    (fun w => decide (w.start < w.stop))

theorem summerWindows_source (cfg : Config) (h : SchoolHoliday) (rule : String) :
    ∀ w ∈ summerWindows cfg h rule, w.source = "summer" := by
  intro w hw
  have hm := List.mem_of_mem_filter hw
  obtain ⟨t, _, rfl⟩ := List.mem_map.mp hm
  rfl

theorem summerWindows_valid (cfg : Config) (h : SchoolHoliday) (rule : String) :
    ∀ w ∈ summerWindows cfg h rule, w.start < w.stop := by
  intro w hw
  simpa using List.of_mem_filter hw

/-- The `vacation_filter` window emitted for every processed holiday. -/
def mkVacationFilterWindow (h : SchoolHoliday) (start stop : Int) : CustodyWindow :=
  { start := start, stop := stop,
    label := h.name ++ " - Période complète (filtrage)",
    source := "vacation_filter" }

/-- Which summer rule the `if july_rule: / elif august_rule: / elif
summer_rule and summer_rule in SUMMER_RULES:` chain of
`_generate_vacation_windows` (lines 695-709) applies: a configured July
rule first, else a configured August rule, else a generic summer rule
when recognized. -/
def selectedSummerRule (cfg : Config) : Option String :=
  match cfg.julyRule with
  | some r => some r
  | none =>
    match cfg.augustRule with
    | some r => some r
    | none =>
      match cfg.summerRule with
      | some r => if SUMMER_RULES.contains r then some r else none
      | none => none

/-- The summer-rule dispatch of `_generate_vacation_windows`: on a summer
break, generate the windows of the selected rule (`some`, meaning
`applied = True` and the automatic split is skipped); otherwise `none`. -/
def summerDispatch (cfg : Config) (h : SchoolHoliday) : Option (List CustodyWindow) :=
  if isSummerBreak h then (selectedSummerRule cfg).map (summerWindows cfg h) else none

/-- Automatic split-rule selection of `_generate_vacation_windows`
(lines 711-731): combine the split mode with the year parity of the
effective start, and only keep the rule when the configured vacation
reference parity matches that year parity. -/
def autoSplitRule (cfg : Config) (start : Int) : Option String :=
  let referenceYear := cfg.referenceYearVacations
  let splitMode := cfg.vacationSplitMode
  let isEvenYear : Bool := decide (yearOfDay (dayOfDateTime start) % 2 = 0)
  let ruleForYear :=
    if splitMode = "odd_second" then
      if !isEvenYear then "second_half" else "first_half"
    else
      if !isEvenYear then "first_half" else "second_half"
  if (decide (referenceYear = "even") && isEvenYear) ||
      (decide (referenceYear = "odd") && !isEvenYear) then
    some ruleForYear
  else none

/-- Interval chosen by the rule branches of `_generate_vacation_windows`
(lines 736-836) for the rules that are reachable there: `first_half`
additionally requires an odd year, `second_half` an even year, and a
`none` result is the Python `continue`.  The legacy branches
(`first_week`, `second_week`, `even_weeks`, `odd_weeks`, `even_weekends`,
`odd_weekends`, `july`, `august`) are unreachable because `autoSplitRule`
only ever produces `first_half`/`second_half`; the dangling `else`
branch (raw bounds stamped with arrival/departure) is kept. -/
def autoSplitSegment (cfg : Config) (r : String)
    (start stop midpoint : Int) : Option (Int × Int) :=
  let isEvenYear : Bool := decide (yearOfDay (dayOfDateTime start) % 2 = 0)
  if r = "first_half" then
    if !isEvenYear then some (start, midpoint) else none
  else if r = "second_half" then
    if isEvenYear then some (midpoint, stop) else none
  else
    some (applyTime start cfg.arrivalTime, applyTime stop cfg.departureTime)

/-- Custody window of the automatic split for one holiday: rule selection,
interval selection, then the `window_end <= window_start` guard before the
append. -/
def autoSplitWindows (cfg : Config) (h : SchoolHoliday)
    (start stop midpoint : Int) : List CustodyWindow :=
  match autoSplitRule cfg start with
  | none => []
  | some r =>
    match autoSplitSegment cfg r start stop midpoint with
    | none => []
    | some (ws, we) =>
      if we ≤ ws then []
      else
        [{ start := ws, stop := we,
           label := "Vacances scolaires - " ++ h.name ++ " (" ++ r ++ ")",
           source := "vacation" }]

/-- Custody windows of `_generate_vacation_windows` for one holiday after
its filter window: the summer dispatch when it applies, else the
automatic year-parity split. -/
def vacationCustodyWindows (cfg : Config) (h : SchoolHoliday)
    (start stop midpoint : Int) : List CustodyWindow :=
  match summerDispatch cfg h with
  | some ws => ws
  | none => autoSplitWindows cfg h start stop midpoint

/-- Windows produced by `_generate_vacation_windows` for one holiday:
skipped entirely when the effective end precedes `now`, else the filter
window followed by the custody windows. -/
def vacationWindowsForHoliday (cfg : Config) (now : Int) (h : SchoolHoliday) :
    List CustodyWindow :=
  let b := effectiveHolidayBounds h cfg.arrivalTime cfg.departureTime
  if b.2.1 < now then []
  else mkVacationFilterWindow h b.1 b.2.1 :: vacationCustodyWindows cfg h b.1 b.2.1 b.2.2

/-- `CustodyScheduleManager._generate_vacation_windows`: nothing without a
configured zone, else the per-holiday windows in input order. -/
def generateVacationWindows (cfg : Config) (now : Int)
    (holidays : List SchoolHoliday) : List CustodyWindow :=
  match cfg.zone with
  | none => []
  | some _ => concatMap (vacationWindowsForHoliday cfg now) holidays

theorem autoSplitWindows_source_valid (cfg : Config) (h : SchoolHoliday)
    (start stop midpoint : Int) :
    ∀ w ∈ autoSplitWindows cfg h start stop midpoint,
      w.source = "vacation" ∧ w.start < w.stop := by
  intro w hw
  unfold autoSplitWindows at hw
  split at hw
  · cases hw
  · split at hw
    · cases hw
    · split at hw
      · cases hw
      · rw [List.mem_singleton] at hw
        subst hw
        exact ⟨rfl, by simpa using not_le.mp (by assumption)⟩

theorem vacationCustodyWindows_source (cfg : Config) (h : SchoolHoliday)
    (start stop midpoint : Int) :
    ∀ w ∈ vacationCustodyWindows cfg h start stop midpoint,
      w.source = "vacation" ∨ w.source = "summer" := by
  intro w hw
  unfold vacationCustodyWindows at hw
  split at hw
  case h_1 ws hds =>
    right
    unfold summerDispatch at hds
    split at hds
    · obtain ⟨r, _, rfl⟩ := Option.map_eq_some.mp hds
      exact summerWindows_source cfg h r w hw
    · cases hds
  case h_2 _ =>
    exact Or.inl (autoSplitWindows_source_valid cfg h start stop midpoint w hw).1

theorem vacationCustodyWindows_valid (cfg : Config) (h : SchoolHoliday)
    (start stop midpoint : Int) :
    ∀ w ∈ vacationCustodyWindows cfg h start stop midpoint, w.start < w.stop := by
  intro w hw
  unfold vacationCustodyWindows at hw
  split at hw
  case h_1 ws hds =>
    unfold summerDispatch at hds
    split at hds
    · obtain ⟨r, _, rfl⟩ := Option.map_eq_some.mp hds
      exact summerWindows_valid cfg h r w hw
    · cases hds
  case h_2 _ =>
    exact (autoSplitWindows_source_valid cfg h start stop midpoint w hw).2

theorem generateVacationWindows_source (cfg : Config) (now : Int)
    (holidays : List SchoolHoliday) :
    ∀ w ∈ generateVacationWindows cfg now holidays,
      w.source = "vacation_filter" ∨ w.source = "vacation" ∨ w.source = "summer" := by
  intro w hw
  unfold generateVacationWindows at hw
  split at hw
  · cases hw
  · obtain ⟨a, _, hwa⟩ := mem_concatMap.mp hw
    simp only [vacationWindowsForHoliday] at hwa
    split at hwa
    · cases hwa
    · rcases List.mem_cons.mp hwa with rfl | htl
      · exact Or.inl rfl
      · exact Or.inr (vacationCustodyWindows_source cfg a _ _ _ w htl)

theorem generateVacationWindows_valid (cfg : Config) (now : Int)
    (holidays : List SchoolHoliday) :
    ∀ w ∈ generateVacationWindows cfg now holidays,
      w.source ≠ "vacation_filter" → w.start < w.stop := by
  intro w hw hsrc
  unfold generateVacationWindows at hw
  split at hw
  · cases hw
  · obtain ⟨a, _, hwa⟩ := mem_concatMap.mp hw
    simp only [vacationWindowsForHoliday] at hwa
    split at hwa
    · cases hwa
    · rcases List.mem_cons.mp hwa with rfl | htl
      · exact absurd rfl hsrc
      · exact vacationCustodyWindows_valid cfg a _ _ _ w htl

/-- C10 theorem: for a summer-break holiday still relevant at `now`, the
vacation generator emits exactly the filter window followed by the
windows of the single summer rule selected by the fixed precedence
(July rule, else August rule, else a recognized generic summer rule),
and no automatic-split (`vacation`-sourced) window is emitted. -/
theorem vacation_summer_precedence (cfg : Config) (now : Int) (h : SchoolHoliday)
    (r : String) (hsum : isSummerBreak h = true)
    (hnow : ¬ (effectiveHolidayBounds h cfg.arrivalTime cfg.departureTime).2.1 < now)
    (hsel : selectedSummerRule cfg = some r) :
    vacationWindowsForHoliday cfg now h =
      mkVacationFilterWindow h (effectiveHolidayBounds h cfg.arrivalTime cfg.departureTime).1
        (effectiveHolidayBounds h cfg.arrivalTime cfg.departureTime).2.1 ::
        summerWindows cfg h r ∧
    ∀ w ∈ vacationWindowsForHoliday cfg now h, w.source ≠ "vacation" := by
  have hv : vacationWindowsForHoliday cfg now h =
      mkVacationFilterWindow h (effectiveHolidayBounds h cfg.arrivalTime cfg.departureTime).1
        (effectiveHolidayBounds h cfg.arrivalTime cfg.departureTime).2.1 ::
        vacationCustodyWindows cfg h
          (effectiveHolidayBounds h cfg.arrivalTime cfg.departureTime).1
          (effectiveHolidayBounds h cfg.arrivalTime cfg.departureTime).2.1
          (effectiveHolidayBounds h cfg.arrivalTime cfg.departureTime).2.2 := by
    simp only [vacationWindowsForHoliday]
    rw [if_neg hnow]
  have hc : vacationCustodyWindows cfg h
      (effectiveHolidayBounds h cfg.arrivalTime cfg.departureTime).1
      (effectiveHolidayBounds h cfg.arrivalTime cfg.departureTime).2.1
      (effectiveHolidayBounds h cfg.arrivalTime cfg.departureTime).2.2 =
      summerWindows cfg h r := by
    unfold vacationCustodyWindows summerDispatch
    rw [hsum]
    simp [hsel]
  refine ⟨by rw [hv, hc], ?_⟩
  intro w hw
  rw [hv, hc] at hw
  rcases List.mem_cons.mp hw with rfl | htl
  · simp [mkVacationFilterWindow]
  · rw [summerWindows_source cfg h r w htl]
    decide

/-- Summer-precedence witness configuration: all three rule slots set. -/
def cfgSummerAll : Config :=
  { referenceYearVacations := "even", zone := some "A",
    julyRule := some "july_odd", augustRule := some "august_even",
    summerRule := some "unknown_rule" }

/-- Summer break 2025 (odd year), 5 July to 1 September. -/
def summerBreak2025 : SchoolHoliday :=
  { name := "Vacances Ete"
    start := daysFromCivil 2025 7 5 * 86400
    stop := daysFromCivil 2025 9 1 * 86400 }

/-- Evaluation instant 1 July 2025 00:00. -/
def nowJuly2025 : Int := daysFromCivil 2025 7 1 * 86400

/-- C10 witness: with July, August and (unrecognized) generic rules all
configured, the July rule alone is applied to the 2025 summer break. -/
theorem vacation_summer_precedence_witness :
    (isSummerBreak summerBreak2025 = true ∧
      ¬ (effectiveHolidayBounds summerBreak2025 cfgSummerAll.arrivalTime
          cfgSummerAll.departureTime).2.1 < nowJuly2025 ∧
      selectedSummerRule cfgSummerAll = some "july_odd") ∧
    vacationWindowsForHoliday cfgSummerAll nowJuly2025 summerBreak2025 =
      mkVacationFilterWindow summerBreak2025
        (effectiveHolidayBounds summerBreak2025 cfgSummerAll.arrivalTime
          cfgSummerAll.departureTime).1
        (effectiveHolidayBounds summerBreak2025 cfgSummerAll.arrivalTime
          cfgSummerAll.departureTime).2.1 ::
        summerWindows cfgSummerAll summerBreak2025 "july_odd" ∧
    ∀ w ∈ vacationWindowsForHoliday cfgSummerAll nowJuly2025 summerBreak2025,
      w.source ≠ "vacation" :=
  ⟨⟨by decide, by decide, by decide⟩,
    vacation_summer_precedence cfgSummerAll nowJuly2025 summerBreak2025 "july_odd"
      (by decide) (by decide) (by decide)⟩

/-- Configuration with the `odd_second` split mode: vacations of even
years belong to the parent with `reference_year_vacations = "even"`, who
should then get the first half. -/
def cfgOddSecond : Config :=
  { referenceYearVacations := "even", vacationSplitMode := "odd_second", zone := some "A" }

/-- Winter break 2026 (even year), 14 February to 2 March — not a summer
break. -/
def winter2026 : SchoolHoliday :=
  { name := "Vacances Hiver"
    start := daysFromCivil 2026 2 14 * 86400
    stop := daysFromCivil 2026 3 2 * 86400 }

/-- Evaluation instant 1 February 2026 00:00. -/
def nowFeb2026 : Int := daysFromCivil 2026 2 1 * 86400

/-- C5 divergence evidence: with split mode `odd_second`, a matching
parity (even reference year, even holiday year) emits no custody window
at all — only the filter window — although the claim requires the window
`[effectiveStart, midpoint)`.  The `first_half` branch of the generator
demands an odd year, contradicting the `odd_second` assignment that maps
even years to the first half, so the branch always falls through. -/
theorem vacation_odd_second_emits_nothing :
    (generateVacationWindows cfgOddSecond nowFeb2026 [winter2026]).map
      (fun w => w.source) = ["vacation_filter"] := by decide

/-- One segment of a custody cycle (`{"days": n, "state": "on"/"off"}`). -/
structure Segment where
  days : Nat
  state : String
deriving DecidableEq, Repr

/-- One entry of the `CUSTODY_TYPES` table in `const.py`. -/
structure CustodyTypeDef where
  label : String
  cycleDays : Nat
  pattern : List Segment
deriving DecidableEq, Repr

/-- The `CUSTODY_TYPES` dictionary of `const.py`. -/
def CUSTODY_TYPES (s : String) : Option CustodyTypeDef :=
  if s = "alternate_week" then
    some ⟨"Semaines alternées (1/1)", 14, [⟨7, "on"⟩, ⟨7, "off"⟩]⟩
  else if s = "alternate_week_parity" then some ⟨"Semaines alternées", 7, []⟩
  else if s = "alternate_weekend" then some ⟨"Week-ends alternés", 7, []⟩
  else if s = "two_two_three" then
    some ⟨"2-2-3", 7, [⟨2, "on"⟩, ⟨2, "off"⟩, ⟨3, "on"⟩]⟩
  else if s = "two_two_five_five" then
    some ⟨"2-2-5-5", 14, [⟨2, "on"⟩, ⟨2, "off"⟩, ⟨5, "on"⟩, ⟨5, "off"⟩]⟩
  else if s = "custom" then some ⟨"Custom", 14, []⟩
  else none

/-- `CUSTODY_TYPES.get(custody_type) or CUSTODY_TYPES["alternate_week"]`. -/
def resolveTypeDef (s : String) : CustodyTypeDef :=
  (CUSTODY_TYPES s).getD ⟨"Semaines alternées (1/1)", 14, [⟨7, "on"⟩, ⟨7, "off"⟩]⟩

/-- `CUSTODY_TYPES.get(custody_type, {}).get("label", "Garde")`. -/
def typeLabelFor (s : String) : String :=
  match CUSTODY_TYPES s with
  | some t => t.label
  | none => "Garde"

/-- The `WEEKDAY_LOOKUP` dictionary (`dict.get` behaviour). -/
def WEEKDAY_LOOKUP (s : String) : Option Int :=
  if s = "monday" then some 0
  else if s = "tuesday" then some 1
  else if s = "wednesday" then some 2
  else if s = "thursday" then some 3
  else if s = "friday" then some 4
  else if s = "saturday" then some 5
  else if s = "sunday" then some 6
  else none

/-- Fuel bound for the Python `while` loops (far above any reachable
iteration count; running out merely truncates the output list). -/
def LOOP_FUEL : Nat := 100000

/-- The `while candidate.isocalendar().week % 2 != parity:` loop of
`_first_monday_with_week_parity`. -/
def parityAdjustLoop : Nat → Int → Int → Int
  | 0, c, _ => c
  | fuel + 1, c, parity =>
    if isoWeekOfDay (dayOfDateTime c) % 2 ≠ parity then
      parityAdjustLoop fuel (c + 7 * 86400) parity
    else c

/-- `CustodyScheduleManager._first_monday_with_week_parity`. -/
def firstMondayWithWeekParity (year parity : Int) : Int :=
  let candidate := daysFromCivil year 1 1 * 86400
  let candidate := candidate + (7 - weekdayOfDay (dayOfDateTime candidate)) % 7 * 86400
  parityAdjustLoop 60 candidate parity

/-- `CustodyScheduleManager._reference_start`. -/
def referenceStart (cfg : Config) (now : Int) (custodyType : String) : Int :=
  let referenceYear0 := yearOfDay (dayOfDateTime now)
  let desired := cfg.referenceYearCustody
  let referenceYear :=
    if desired = "even" ∧ referenceYear0 % 2 ≠ 0 then referenceYear0 - 1
    else if desired = "odd" ∧ referenceYear0 % 2 = 0 then referenceYear0 - 1
    else referenceYear0
  if custodyType = "alternate_weekend" ∨ custodyType = "alternate_week_parity" then
    let targetParity : Int := if desired = "even" then 0 else 1
    firstMondayWithWeekParity referenceYear targetParity
  else
    let base := daysFromCivil referenceYear 1 1 * 86400
    let startDay := (WEEKDAY_LOOKUP (strToLower cfg.startDay)).getD 0
    let delta := (startDay - weekdayOfDay (dayOfDateTime base)) % 7
    base + delta * 86400

/-- The catch-up loop of the parity branches of
`_generate_pattern_windows` (`while pointer < now - 14 days`, advancing
two weeks and re-aligning the parity). -/
def catchUpPointer : Nat → Int → Int → Int → Int
  | 0, p, _, _ => p
  | fuel + 1, p, now, targetParity =>
    if p < now - 14 * 86400 then
      let p1 := p + 14 * 86400
      let p2 := if isoWeekOfDay (dayOfDateTime p1) % 2 ≠ targetParity then p1 + 7 * 86400 else p1
      catchUpPointer fuel p2 now targetParity
    else p

/-- `CustodyScheduleManager._is_in_vacation_period`. -/
def isInVacationPeriod (checkDate : Int) (vacationWindows : List CustodyWindow) : Bool :=
  vacationWindows.any (fun v => decide (v.start ≤ checkDate) && decide (checkDate ≤ v.stop))

/-- One weekend window of the `alternate_weekend` branch of
`_generate_pattern_windows`: Friday→Sunday, with public-holiday bridging
(Thursday start / Monday end) suppressed during vacations. -/
def weekendWindow (arr dep : Nat) (typeLabel : String) (pointer : Int)
    (vacationWindows : List CustodyWindow) (holidays : List Int) : CustodyWindow :=
  let friday := pointer + 4 * 86400
  let sunday := pointer + 6 * 86400
  let monday := pointer + 7 * 86400
  let thursday := pointer + 3 * 86400
  let weekendInVacation :=
    isInVacationPeriod friday vacationWindows || isInVacationPeriod sunday vacationWindows ||
      isInVacationPeriod monday vacationWindows
  let fridayIsHoliday := !weekendInVacation && holidays.contains (dayOfDateTime friday)
  let mondayIsHoliday := !weekendInVacation && holidays.contains (dayOfDateTime monday)
  let windowStart := if fridayIsHoliday then thursday else friday
  let windowEnd := if mondayIsHoliday then monday else sunday
  let labelSuffix :=
    if fridayIsHoliday then (if mondayIsHoliday then " + Pont" else " + Vendredi férié")
    else (if mondayIsHoliday then " + Lundi férié" else "")
  { start := applyTime windowStart arr
    stop := applyTime windowEnd dep
    label := "Garde - " ++ typeLabel ++ labelSuffix
    source := "pattern" }

/-- The `while pointer < horizon` loop of the `alternate_weekend` branch:
one window per week whose ISO parity matches. -/
def weekendLoop (arr dep : Nat) (typeLabel : String) (targetParity : Int)
    (vacationWindows : List CustodyWindow) (holidays : List Int) (horizon : Int) :
    Nat → Int → List CustodyWindow
  | 0, _ => []
  | fuel + 1, pointer =>
    if pointer < horizon then
      (if isoWeekOfDay (dayOfDateTime pointer) % 2 = targetParity then
        [weekendWindow arr dep typeLabel pointer vacationWindows holidays]
      else []) ++
        weekendLoop arr dep typeLabel targetParity vacationWindows holidays horizon fuel
          (pointer + 7 * 86400)
    else []

/-- One full-week window of the `alternate_week_parity` branch:
Monday→Sunday, with holiday bridging (previous-Friday start /
next-Monday end) suppressed during vacations. -/
def weekParityWindow (arr dep : Nat) (typeLabel : String) (pointer : Int)
    (vacationWindows : List CustodyWindow) (holidays : List Int) : CustodyWindow :=
  let monday := pointer
  let sunday := pointer + 6 * 86400
  let nextMonday := pointer + 7 * 86400
  let previousFriday := pointer - 3 * 86400
  let weekInVacation :=
    isInVacationPeriod monday vacationWindows || isInVacationPeriod sunday vacationWindows ||
      isInVacationPeriod nextMonday vacationWindows
  let friday := pointer + 4 * 86400
  let mondayIsHoliday := !weekInVacation && holidays.contains (dayOfDateTime monday)
  let fridayIsHoliday := !weekInVacation && holidays.contains (dayOfDateTime friday)
  let windowStart := if mondayIsHoliday then previousFriday else monday
  let windowEnd := if fridayIsHoliday then nextMonday else sunday
  let labelSuffix :=
    if mondayIsHoliday then (if fridayIsHoliday then " + Pont" else " + Lundi férié")
    else (if fridayIsHoliday then " + Vendredi férié" else "")
  { start := applyTime windowStart arr
    stop := applyTime windowEnd dep
    label := "Garde - " ++ typeLabel ++ labelSuffix
    source := "pattern" }

/-- The `while pointer < horizon` loop of the `alternate_week_parity`
branch. -/
def weekParityLoop (arr dep : Nat) (typeLabel : String) (targetParity : Int)
    (vacationWindows : List CustodyWindow) (holidays : List Int) (horizon : Int) :
    Nat → Int → List CustodyWindow
  | 0, _ => []
  | fuel + 1, pointer =>
    if pointer < horizon then
      (if isoWeekOfDay (dayOfDateTime pointer) % 2 = targetParity then
        [weekParityWindow arr dep typeLabel pointer vacationWindows holidays]
      else []) ++
        weekParityLoop arr dep typeLabel targetParity vacationWindows holidays horizon fuel
          (pointer + 7 * 86400)
    else []

/-- The inner `for segment in pattern` loop of the segment-cycle branch of
`_generate_pattern_windows`; the running `offset` timedelta is tracked in
whole days. -/
def segmentsWindows (arr dep : Nat) (typeLabel : String) (pointer : Int) :
    List Segment → Int → List CustodyWindow
  | [], _ => []
  | seg :: rest, offsetDays =>
    let segmentStart := pointer + offsetDays * 86400
    let segmentEnd := segmentStart + ((seg.days : Int) - 1) * 86400
    (if seg.state = "on" then
      [{ start := applyTime segmentStart arr
         stop := applyTime segmentEnd dep
         label := "Garde - " ++ typeLabel
         source := "pattern" }]
    else []) ++ segmentsWindows arr dep typeLabel pointer rest (offsetDays + (seg.days : Int))

/-- The `while pointer < horizon` loop of the segment-cycle branch. -/
def segmentLoop (arr dep : Nat) (typeLabel : String) (cycleDays : Nat)
    (pattern : List Segment) (horizon : Int) : Nat → Int → List CustodyWindow
  | 0, _ => []
  | fuel + 1, pointer =>
    if pointer < horizon then
      segmentsWindows arr dep typeLabel pointer pattern 0 ++
        segmentLoop arr dep typeLabel cycleDays pattern horizon fuel
          (pointer + (cycleDays : Int) * 86400)
    else []

/-- `CustodyScheduleManager._generate_pattern_windows`: the two
ISO-parity branches, else the segment-cycle expansion of the resolved
custody type over `[reference start, now + 90 days)`. -/
def generatePatternWindows (cfg : Config) (now : Int)
    (vacationWindows : List CustodyWindow) : List CustodyWindow :=
  let custodyType := cfg.custodyType
  let typeDef := resolveTypeDef custodyType
  let horizon := now + 90 * 86400
  if custodyType = "alternate_weekend" then
    let holidays := getFrenchHolidays (yearOfDay (dayOfDateTime now)) ++
      getFrenchHolidays (yearOfDay (dayOfDateTime now) + 1)
    let targetParity : Int := if cfg.referenceYearCustody = "even" then 0 else 1
    let pointer := catchUpPointer LOOP_FUEL (referenceStart cfg now custodyType) now targetParity
    weekendLoop cfg.arrivalTime cfg.departureTime (typeLabelFor custodyType) targetParity
      vacationWindows holidays horizon LOOP_FUEL pointer
  else if custodyType = "alternate_week_parity" then
    let holidays := getFrenchHolidays (yearOfDay (dayOfDateTime now)) ++
      getFrenchHolidays (yearOfDay (dayOfDateTime now) + 1)
    let targetParity : Int := if cfg.referenceYearCustody = "even" then 0 else 1
    let pointer := catchUpPointer LOOP_FUEL (referenceStart cfg now custodyType) now targetParity
    weekParityLoop cfg.arrivalTime cfg.departureTime (typeLabelFor custodyType) targetParity
      vacationWindows holidays horizon LOOP_FUEL pointer
  else
    segmentLoop cfg.arrivalTime cfg.departureTime (typeLabelFor custodyType) typeDef.cycleDays
      typeDef.pattern horizon LOOP_FUEL (referenceStart cfg now custodyType)

theorem applyTime_lt_shift (t : Int) (s e : Int) (arr dep : Nat)
    (h1 : s + 1 ≤ e) (hA : arr < 1440) :
    applyTime (t + s * 86400) arr < applyTime (t + e * 86400) dep := by
  unfold applyTime combineDayTime dayOfDateTime
  rw [Int.add_mul_ediv_right t s (by norm_num), Int.add_mul_ediv_right t e (by norm_num)]
  have h2 : (arr : Int) < 1440 := by exact_mod_cast hA
  have h3 : (0 : Int) ≤ (dep : Int) := Int.natCast_nonneg dep
  have h4 : (t / 86400 + s) * 86400 = t / 86400 * 86400 + s * 86400 := by ring
  have h5 : (t / 86400 + e) * 86400 = t / 86400 * 86400 + e * 86400 := by ring
  rw [h4, h5]
  linarith

theorem applyTime_lt_base (t : Int) (k : Int) (arr dep : Nat)
    (hk : 1 ≤ k) (hA : arr < 1440) :
    applyTime t arr < applyTime (t + k * 86400) dep := by
  have h := applyTime_lt_shift t 0 k arr dep (by omega) hA
  simpa using h

theorem weekendWindow_source_valid (arr dep : Nat) (typeLabel : String) (pointer : Int)
    (vws : List CustodyWindow) (hols : List Int) (hA : arr < 1440) :
    (weekendWindow arr dep typeLabel pointer vws hols).source = "pattern" ∧
      (weekendWindow arr dep typeLabel pointer vws hols).start <
        (weekendWindow arr dep typeLabel pointer vws hols).stop := by
  refine ⟨rfl, ?_⟩
  simp only [weekendWindow]
  split_ifs <;> [exact applyTime_lt_shift pointer 3 7 arr dep (by omega) hA;
    exact applyTime_lt_shift pointer 3 6 arr dep (by omega) hA;
    exact applyTime_lt_shift pointer 4 7 arr dep (by omega) hA;
    exact applyTime_lt_shift pointer 4 6 arr dep (by omega) hA]

theorem weekParityWindow_source_valid (arr dep : Nat) (typeLabel : String) (pointer : Int)
    (vws : List CustodyWindow) (hols : List Int) (hA : arr < 1440) :
    (weekParityWindow arr dep typeLabel pointer vws hols).source = "pattern" ∧
      (weekParityWindow arr dep typeLabel pointer vws hols).start <
        (weekParityWindow arr dep typeLabel pointer vws hols).stop := by
  refine ⟨rfl, ?_⟩
  simp only [weekParityWindow]
  have hm : pointer - 3 * 86400 = pointer + (-3) * 86400 := by ring
  have hz : pointer = pointer + 0 * 86400 := by ring
  split_ifs
  · rw [hm]; exact applyTime_lt_shift pointer (-3) 7 arr dep (by omega) hA
  · rw [hm]; exact applyTime_lt_shift pointer (-3) 6 arr dep (by omega) hA
  · conv_lhs => rw [hz]
    exact applyTime_lt_shift pointer 0 7 arr dep (by omega) hA
  · conv_lhs => rw [hz]
    exact applyTime_lt_shift pointer 0 6 arr dep (by omega) hA

theorem weekendLoop_mem (arr dep : Nat) (typeLabel : String) (targetParity : Int)
    (vws : List CustodyWindow) (hols : List Int) (horizon : Int) :
    ∀ fuel pointer w, w ∈ weekendLoop arr dep typeLabel targetParity vws hols horizon fuel pointer →
      ∃ p, w = weekendWindow arr dep typeLabel p vws hols := by
  intro fuel
  induction fuel with
  | zero => intro pointer w hw; cases hw
  | succ n ih =>
    intro pointer w hw
    simp only [weekendLoop] at hw
    split at hw
    · rcases List.mem_append.mp hw with hl | hr
      · split at hl
        · rw [List.mem_singleton] at hl
          exact ⟨pointer, hl⟩
        · cases hl
      · exact ih (pointer + 7 * 86400) w hr
    · cases hw

theorem weekParityLoop_mem (arr dep : Nat) (typeLabel : String) (targetParity : Int)
    (vws : List CustodyWindow) (hols : List Int) (horizon : Int) :
    ∀ fuel pointer w,
      w ∈ weekParityLoop arr dep typeLabel targetParity vws hols horizon fuel pointer →
      ∃ p, w = weekParityWindow arr dep typeLabel p vws hols := by
  intro fuel
  induction fuel with
  | zero => intro pointer w hw; cases hw
  | succ n ih =>
    intro pointer w hw
    simp only [weekParityLoop] at hw
    split at hw
    · rcases List.mem_append.mp hw with hl | hr
      · split at hl
        · rw [List.mem_singleton] at hl
          exact ⟨pointer, hl⟩
        · cases hl
      · exact ih (pointer + 7 * 86400) w hr
    · cases hw

theorem segmentsWindows_source_valid (arr dep : Nat) (typeLabel : String) (pointer : Int)
    (hA : arr < 1440) :
    ∀ segs offsetDays, (∀ seg ∈ segs, 2 ≤ seg.days) →
      ∀ w ∈ segmentsWindows arr dep typeLabel pointer segs offsetDays,
        w.source = "pattern" ∧ w.start < w.stop := by
  intro segs
  induction segs with
  | nil => intro offsetDays _ w hw; cases hw
  | cons seg rest ih =>
    intro offsetDays hdays w hw
    simp only [segmentsWindows] at hw
    rcases List.mem_append.mp hw with hl | hr
    · split at hl
      · rw [List.mem_singleton] at hl
        subst hl
        refine ⟨rfl, ?_⟩
        have hd : 2 ≤ seg.days := hdays seg (List.mem_cons_self _ _)
        have hk : (1 : Int) ≤ (seg.days : Int) - 1 := by
          have : (2 : Int) ≤ (seg.days : Int) := by exact_mod_cast hd
          omega
        exact applyTime_lt_base (pointer + offsetDays * 86400) ((seg.days : Int) - 1) arr dep hk hA
      · cases hl
    · exact ih (offsetDays + (seg.days : Int))
        (fun s hs => hdays s (List.mem_cons_of_mem _ hs)) w hr

theorem segmentLoop_mem (arr dep : Nat) (typeLabel : String) (cycleDays : Nat)
    (pattern : List Segment) (horizon : Int) :
    ∀ fuel pointer w, w ∈ segmentLoop arr dep typeLabel cycleDays pattern horizon fuel pointer →
      ∃ p, w ∈ segmentsWindows arr dep typeLabel p pattern 0 := by
  intro fuel
  induction fuel with
  | zero => intro pointer w hw; cases hw
  | succ n ih =>
    intro pointer w hw
    simp only [segmentLoop] at hw
    split at hw
    · rcases List.mem_append.mp hw with hl | hr
      · exact ⟨pointer, hl⟩
      · exact ih (pointer + (cycleDays : Int) * 86400) w hr
    · cases hw

theorem resolveTypeDef_segment_days (s : String) :
    ∀ seg ∈ (resolveTypeDef s).pattern, 2 ≤ seg.days := by
  intro seg h
  unfold resolveTypeDef CUSTODY_TYPES at h
  split_ifs at h <;>
    simp only [Option.getD_some, Option.getD_none] at h <;>
    fin_cases h <;> decide

theorem generatePatternWindows_source_valid (cfg : Config) (now : Int)
    (vws : List CustodyWindow) (hA : cfg.arrivalTime < 1440) :
    ∀ w ∈ generatePatternWindows cfg now vws, w.source = "pattern" ∧ w.start < w.stop := by
  intro w hw
  simp only [generatePatternWindows] at hw
  split_ifs at hw <;>
    first
      | (obtain ⟨p, rfl⟩ := weekendLoop_mem _ _ _ _ _ _ _ _ _ w hw
         exact weekendWindow_source_valid _ _ _ _ _ _ hA)
      | (obtain ⟨p, rfl⟩ := weekParityLoop_mem _ _ _ _ _ _ _ _ _ w hw
         exact weekParityWindow_source_valid _ _ _ _ _ _ hA)
      | (obtain ⟨p, hp⟩ := segmentLoop_mem _ _ _ _ _ _ _ _ w hw
         exact segmentsWindows_source_valid _ _ _ _ hA _ _
           (resolveTypeDef_segment_days cfg.custodyType) w hp)

/-- `CustodyScheduleManager._load_custom_rules`: keep entries whose two
datetimes parsed and form a non-empty interval. -/
def loadCustomRules : List CustomRule → List CustodyWindow
  | [] => []
  | r :: rest =>
    match r.start, r.stop with
    | some s, some e =>
      if e ≤ s then loadCustomRules rest
      else { start := s, stop := e, label := r.label, source := "custom" } :: loadCustomRules rest
    | _, _ => loadCustomRules rest

theorem loadCustomRules_source_valid :
    ∀ rs, ∀ w ∈ loadCustomRules rs, w.source = "custom" ∧ w.start < w.stop := by
  intro rs
  induction rs with
  | nil => intro w hw; cases hw
  | cons r rest ih =>
    intro w hw
    rcases hs : r.start with _ | sv <;> rcases he : r.stop with _ | ev <;>
      simp only [loadCustomRules, hs, he] at hw
    · exact ih w hw
    · exact ih w hw
    · exact ih w hw
    · split at hw
      · exact ih w hw
      · rcases List.mem_cons.mp hw with rfl | htl
        · exact ⟨rfl, by simpa using not_le.mp (by assumption)⟩
        · exact ih w htl

/-- The `while occ_date <= range_end` loop of `_build_recurring_windows`:
one window per weekly occurrence, guarded by `end_dt > start_dt`. -/
def recurringOccurrences (startTime endTime : Nat) (label : String) (rangeEnd : Int) :
    Nat → Int → List CustodyWindow
  | 0, _ => []
  | fuel + 1, occDate =>
    if occDate ≤ rangeEnd then
      (if combineDayTime occDate startTime < combineDayTime occDate endTime then
        [{ start := combineDayTime occDate startTime
           stop := combineDayTime occDate endTime
           label := label
           source := "exception_recurring" }]
      else []) ++ recurringOccurrences startTime endTime label rangeEnd fuel (occDate + 7)
    else []

/-- `CustodyScheduleManager._build_recurring_windows` for one rule: reject
invalid weekdays and non-positive durations, clamp the horizon to
`[now − 1 day, now + 365 days]` intersected with the rule's date range,
find the first matching weekday, then step weekly.  (Python time objects
are always truthy, so the `not start_time or not end_time` test never
fires; only `end_time <= start_time` rejects.) -/
def recurringWindowsForWeekday (now : Int) (item : RecurringException) (wd : Int) :
    List CustodyWindow :=
  if wd < 0 ∨ 6 < wd then []
  else if item.endTime ≤ item.startTime then []
  else
    let horizonEnd := dayOfDateTime now + 365
    let rangeStart := dayOfDateTime now - 1
    let current := match item.startDate with
      | some sd => max rangeStart sd
      | none => rangeStart
    let rangeEnd := match item.endDate with
      | some ed => min horizonEnd ed
      | none => horizonEnd
    if rangeEnd < current then []
    else
      let daysAhead := (wd - weekdayOfDay current) % 7
      recurringOccurrences item.startTime item.endTime item.label rangeEnd LOOP_FUEL
        (current + daysAhead)

/-- Dispatch on the parsed weekday (`int(item.get("weekday"))`, skipped
when it raised). -/
def recurringWindowsForRule (now : Int) (item : RecurringException) :
    List CustodyWindow :=
  match item.weekday with
  | none => []
  | some wd => recurringWindowsForWeekday now item wd

/-- `CustodyScheduleManager._build_recurring_windows` over the configured
rules (an absent or non-list option is the empty list). -/
def buildRecurringWindows (cfg : Config) (now : Int) : List CustodyWindow :=
  concatMap (recurringWindowsForRule now) cfg.exceptionsRecurring

theorem recurringOccurrences_source_valid (startTime endTime : Nat) (label : String)
    (rangeEnd : Int) :
    ∀ fuel occDate w, w ∈ recurringOccurrences startTime endTime label rangeEnd fuel occDate →
      w.source = "exception_recurring" ∧ w.start < w.stop := by
  intro fuel
  induction fuel with
  | zero => intro occDate w hw; cases hw
  | succ n ih =>
    intro occDate w hw
    simp only [recurringOccurrences] at hw
    split at hw
    · rcases List.mem_append.mp hw with hl | hr
      · split at hl
        · rw [List.mem_singleton] at hl
          subst hl
          exact ⟨rfl, by assumption⟩
        · cases hl
      · exact ih (occDate + 7) w hr
    · cases hw

theorem buildRecurringWindows_source_valid (cfg : Config) (now : Int) :
    ∀ w ∈ buildRecurringWindows cfg now,
      w.source = "exception_recurring" ∧ w.start < w.stop := by
  intro w hw
  obtain ⟨item, _, hwi⟩ := mem_concatMap.mp hw
  unfold recurringWindowsForRule at hwi
  split at hwi
  · cases hwi
  · simp only [recurringWindowsForWeekday] at hwi
    split_ifs at hwi <;>
      first
        | cases hwi
        | exact recurringOccurrences_source_valid _ _ _ _ _ _ w hwi

/-- A value handed to `set_manual_windows` for `start`/`end`: either an
actual datetime or a string to parse. -/
inductive DTValue where
  | dt (t : Int)
  | str (s : String)
deriving DecidableEq, Repr

/-- One entry of the ranges handed to `set_manual_windows`
(`rng.get("start")`, `rng.get("end")`, `rng.get("label", default)`). -/
structure ManualRange where
  start : Option DTValue
  stop : Option DTValue
  label : String := "Manual custody"
deriving DecidableEq, Repr

/-- `start_val if isinstance(start_val, datetime) else
dt_util.parse_datetime(start_val)`, with the external parser abstracted
as `parse` (returning `none` for a missing or unparseable value). -/
def resolveDTValue (parse : String → Option Int) : Option DTValue → Option Int
  | none => none
  | some (.dt t) => some t
  | some (.str s) => parse s

/-- `CustodyScheduleManager.set_manual_windows`: the new stored manual
window list (the assignment replaces the previous list wholesale). -/
def setManualWindows (parse : String → Option Int) :
    List ManualRange → List CustodyWindow
  | [] => []
  | rng :: rest =>
    match resolveDTValue parse rng.start, resolveDTValue parse rng.stop with
    | some s, some e =>
      if e ≤ s then setManualWindows parse rest
      else { start := s, stop := e, label := rng.label, source := "manual" } ::
        setManualWindows parse rest
    | some _, none => setManualWindows parse rest
    | none, _ => setManualWindows parse rest

/-- Spec-side characterization of a valid manual entry: both bounds
resolve to datetimes and the interval is non-empty; the stored window
carries source `manual`. -/
def manualWindowSpec (parse : String → Option Int) (rng : ManualRange) :
    Option CustodyWindow :=
  match resolveDTValue parse rng.start, resolveDTValue parse rng.stop with
  | some s, some e =>
    if s < e then some { start := s, stop := e, label := rng.label, source := "manual" }
    else none
  | _, _ => none

/-- C9: `set_manual_windows` stores exactly the valid entries of its
input (missing/unparseable bounds and empty or inverted intervals are
silently skipped), every stored window carries source `manual` and a
non-empty interval, and the previous stored list is discarded (the
result does not depend on it). -/
theorem setManualWindows_spec (parse : String → Option Int) (ranges : List ManualRange) :
    setManualWindows parse ranges = ranges.filterMap (manualWindowSpec parse) ∧
    ∀ w ∈ setManualWindows parse ranges, w.source = "manual" ∧ w.start < w.stop := by
  induction ranges with
  | nil => exact ⟨rfl, by intro w hw; cases hw⟩
  | cons rng rest ih =>
    obtain ⟨ih1, ih2⟩ := ih
    constructor
    · rcases hs : resolveDTValue parse rng.start with _ | sv <;>
        rcases he : resolveDTValue parse rng.stop with _ | ev <;>
        simp only [setManualWindows, List.filterMap_cons, manualWindowSpec, hs, he, ih1]
      split_ifs <;>
        first
          | rfl
          | (exact absurd ‹_ < _› (not_lt.mpr ‹_ ≤ _›))
          | (exact absurd (not_le.mp ‹¬_ ≤ _›) ‹¬_ < _›)
    · intro w hw
      rcases hs : resolveDTValue parse rng.start with _ | sv <;>
        rcases he : resolveDTValue parse rng.stop with _ | ev <;>
        simp only [setManualWindows, hs, he] at hw
      · exact ih2 w hw
      · exact ih2 w hw
      · exact ih2 w hw
      · split at hw
        · exact ih2 w hw
        · rcases List.mem_cons.mp hw with rfl | htl
          · exact ⟨rfl, by simpa using not_le.mp (by assumption)⟩
          · exact ih2 w htl

/-- `CustodyScheduleManager._filter_windows_by_vacations`: drop pattern
windows that strictly overlap an actual vacation custody period; the
periods are taken from the vacation windows whose source is NOT
`vacation_filter` (the function's docstring makes this deliberate), and
with no such period nothing is filtered. -/
def filterWindowsByVacations (patternWindows vacationWindows : List CustodyWindow) :
    List CustodyWindow :=
  if vacationWindows.isEmpty then patternWindows
  else
    let vacationPeriods := (vacationWindows.filter
      (fun v => decide (v.source ≠ "vacation_filter"))).map (fun v => (v.start, v.stop))
    if vacationPeriods.isEmpty then patternWindows
    else
      patternWindows.filter (fun w =>
        !(vacationPeriods.any (fun p => decide (w.start < p.2) && decide (p.1 < w.stop))))

/-- Membership characterization of `_filter_windows_by_vacations`: a
pattern window survives exactly when it strictly overlaps no vacation
custody window (source other than `vacation_filter`); overlap with only
a `vacation_filter` span does not remove it. -/
theorem mem_filterWindowsByVacations (pws vws : List CustodyWindow) (w : CustodyWindow) :
    w ∈ filterWindowsByVacations pws vws ↔
      w ∈ pws ∧ ∀ v ∈ vws, v.source ≠ "vacation_filter" →
        ¬(w.start < v.stop ∧ v.start < w.stop) := by
  simp only [filterWindowsByVacations]
  split
  case isTrue hemp =>
    rw [List.isEmpty_iff] at hemp
    subst hemp
    simp
  case isFalse _ =>
    split
    case isTrue hper =>
      rw [List.isEmpty_iff, List.map_eq_nil_iff, List.filter_eq_nil_iff] at hper
      simp only [decide_eq_true_eq] at hper
      constructor
      · intro hw
        refine ⟨hw, fun v hv hsrc => absurd hsrc (hper v hv)⟩
      · exact fun hw => hw.1
    case isFalse _ =>
      rw [List.mem_filter]
      constructor
      · rintro ⟨hw, hno⟩
        refine ⟨hw, fun v hv hsrc hover => ?_⟩
        rw [Bool.not_eq_eq_eq_not, Bool.not_true, List.any_eq_false] at hno
        have hvmem : (v.start, v.stop) ∈ (vws.filter
            (fun v => decide (v.source ≠ "vacation_filter"))).map (fun v => (v.start, v.stop)) :=
          List.mem_map.mpr ⟨v, List.mem_filter.mpr ⟨hv, by simpa using hsrc⟩, rfl⟩
        have hp := hno _ hvmem
        simp only [Bool.and_eq_true, decide_eq_true_eq] at hp
        exact hp ⟨hover.1, hover.2⟩
      · rintro ⟨hw, hno⟩
        refine ⟨hw, ?_⟩
        rw [Bool.not_eq_eq_eq_not, Bool.not_true, List.any_eq_false]
        intro p hp
        obtain ⟨v, hvf, rfl⟩ := List.mem_map.mp hp
        obtain ⟨hv, hsrc⟩ := List.mem_filter.mp hvf
        simp only [decide_eq_true_eq] at hsrc
        simp only [Bool.and_eq_true, decide_eq_true_eq, not_and]
        intro h1 h2
        exact hno v hv hsrc ⟨h1, h2⟩

/-- Steps 1-6 of `CustodyScheduleManager._build_windows` before its past
filter: vacation display windows (filter windows excluded), then custom
windows, then the vacation-filtered pattern windows. -/
def mergedWindows (cfg : Config) (now : Int) (holidays : List SchoolHoliday) :
    List CustodyWindow :=
  let vacationWindows := generateVacationWindows cfg now holidays
  let patternWindows := generatePatternWindows cfg now vacationWindows
  let customWindows := loadCustomRules cfg.customRules
  let filteredPatternWindows := filterWindowsByVacations patternWindows vacationWindows
  let vacationDisplayWindows := vacationWindows.filter
    (fun w => decide (w.source ≠ "vacation_filter"))
  vacationDisplayWindows ++ customWindows ++ filteredPatternWindows

/-- `CustodyScheduleManager._build_windows`: the merged windows minus
those ending at or before `now − 1 day`. -/
def buildWindows (cfg : Config) (now : Int) (holidays : List SchoolHoliday) :
    List CustodyWindow :=
  (mergedWindows cfg now holidays).filter (fun w => decide (now - 86400 < w.stop))

/-- The manual presence override (`{"state": ..., "until": ...}`;
`untilTime` is the Python key `until`, a reserved word in Lean). -/
structure PresenceOverride where
  state : String
  untilTime : Option Int
deriving DecidableEq, Repr

/-- `CustodyScheduleManager._evaluate_override`: `none` when no override
is set or it expired (`now > until`), else whether the state is `on`. -/
def evaluateOverride (ovr : Option PresenceOverride) (now : Int) : Option Bool :=
  match ovr with
  | none => none
  | some o =>
    match o.untilTime with
    | some u => if u < now then none else some (decide (o.state = "on"))
    | none => some (decide (o.state = "on"))

/-- `windows.sort(key=lambda window: window.start)`; Python's sort is
stable, and so is `List.insertionSort`, so both compute the same list. -/
def sortWindows (ws : List CustodyWindow) : List CustodyWindow :=
  ws.insertionSort (fun a b => a.start ≤ b.start)

/-- The strict past filter of `async_calculate` (line 189): keep only
windows ending more than one minute after `now`. -/
def resolvedWindows (ws : List CustodyWindow) (now : Int) : List CustodyWindow :=
  (sortWindows ws).filter (fun w => decide (now + 60 < w.stop))

/-- `current_window` of `async_calculate`: first window containing `now`
whose end is beyond the one-minute grace margin. -/
def currentWindowOf (windows : List CustodyWindow) (now : Int) : Option CustodyWindow :=
  windows.find? (fun w =>
    decide (w.start ≤ now) && decide (now < w.stop) && decide (now + 60 < w.stop))

/-- `next_window` of `async_calculate`: first window starting and ending
in the future. -/
def nextWindowOf (windows : List CustodyWindow) (now : Int) : Option CustodyWindow :=
  windows.find? (fun w => decide (now < w.start) && decide (now < w.stop))

/-- The shared fallback of `async_calculate` (lines 224-233 and 241-250):
take the next window's bounds, else the first window ending beyond the
grace margin, re-deriving the matching arrival. -/
def fallbackNext (windows : List CustodyWindow) (nextWindow : Option CustodyWindow)
    (now : Int) : Option Int × Option Int :=
  match nextWindow with
  | some nw => (some nw.start, some nw.stop)
  | none =>
    match windows.find? (fun w => decide (now + 60 < w.stop)) with
    | some fw =>
      match windows.find? (fun w => decide (w.stop = fw.stop)) with
      | some mw => (some mw.start, some fw.stop)
      | none => (none, some fw.stop)
    | none => (none, none)

/-- The `next_arrival`/`next_departure` computation of `async_calculate`
(lines 212-273), returned as (nextArrival, nextDeparture). -/
def nextFields (windows : List CustodyWindow) (nextWindow currentWindow : Option CustodyWindow)
    (overrideState : Option Bool) (ovr : Option PresenceOverride) (isPresent : Bool)
    (now : Int) : Option Int × Option Int :=
  if isPresent then
    match currentWindow with
    | some cw =>
      if now + 60 < cw.stop then
        ((windows.find? (fun w => decide (cw.stop < w.start))).map CustodyWindow.start,
          some cw.stop)
      else fallbackNext windows nextWindow now
    | none =>
      match overrideState, ovr with
      | some true, some o =>
        match o.untilTime with
        | some u =>
          if now + 60 < u then
            ((windows.find? (fun w => decide (u < w.start))).map CustodyWindow.start, some u)
          else fallbackNext windows nextWindow now
        | none => (nextWindow.map CustodyWindow.start, nextWindow.map CustodyWindow.stop)
      | _, _ => (nextWindow.map CustodyWindow.start, nextWindow.map CustodyWindow.stop)
  else
    match nextWindow with
    | some nw =>
      if nw.stop ≤ now + 60 then
        match windows.find? (fun w => decide (now + 60 < w.stop)) with
        | some fw =>
          match windows.find? (fun w => decide (w.stop = fw.stop)) with
          | some mw => (some mw.start, some fw.stop)
          | none => (some nw.start, some fw.stop)
        | none => (none, none)
      else (some nw.start, some nw.stop)
    | none => (none, none)

/-- `is_present` before the lines 206-210 adjustment: an active override
wins, else window membership. -/
def calcIsPresent0 (allWindows : List CustodyWindow) (now : Int)
    (ovr : Option PresenceOverride) : Bool :=
  match evaluateOverride ovr now with
  | some b => b
  | none => (currentWindowOf (resolvedWindows allWindows now) now).isSome

/-- The lines 206-210 adjustment of `async_calculate`: a current window
ending within the grace margin is dropped (and presence cleared) when no
override is active; returns (is_present, current_window). -/
def calcAdjusted (allWindows : List CustodyWindow) (now : Int)
    (ovr : Option PresenceOverride) : Bool × Option CustodyWindow :=
  match currentWindowOf (resolvedWindows allWindows now) now with
  | some cw =>
    if cw.stop ≤ now + 60 ∧ evaluateOverride ovr now = none then (false, none)
    else (calcIsPresent0 allWindows now ovr, some cw)
  | none => (calcIsPresent0 allWindows now ovr, none)

/-- The (next_arrival, next_departure) pair of `async_calculate`. -/
def calcNextFields (allWindows : List CustodyWindow) (now : Int)
    (ovr : Option PresenceOverride) : Option Int × Option Int :=
  nextFields (resolvedWindows allWindows now) (nextWindowOf (resolvedWindows allWindows now) now)
    (calcAdjusted allWindows now ovr).2 (evaluateOverride ovr now) ovr
    (calcAdjusted allWindows now ovr).1 now

/-- The presence summary computed by `async_calculate` (the period
classification and next-vacation display fields are outside the claims
settled here). -/
structure CalcResult where
  isPresent : Bool
  nextArrival : Option Int
  nextDeparture : Option Int
  currentWindow : Option CustodyWindow
  windows : List CustodyWindow
deriving DecidableEq, Repr

/-- `CustodyScheduleManager.async_calculate` from the merged window list
on: sort, strict past filter, current/next window, override handling and
the next-arrival/departure fields. -/
def calculate (allWindows : List CustodyWindow) (now : Int)
    (ovr : Option PresenceOverride) : CalcResult :=
  { isPresent := (calcAdjusted allWindows now ovr).1
    nextArrival := (calcNextFields allWindows now ovr).1
    nextDeparture := (calcNextFields allWindows now ovr).2
    currentWindow := (calcAdjusted allWindows now ovr).2
    windows := resolvedWindows allWindows now }

/-- One full computation: `_build_windows`, then the stored manual
windows and the recurring exception windows, then the evaluation — the
window-pipeline part of `async_calculate`. -/
def fullCalculate (cfg : Config) (holidays : List SchoolHoliday) (now : Int)
    (manualWindows : List CustodyWindow) (ovr : Option PresenceOverride) : CalcResult :=
  calculate (buildWindows cfg now holidays ++ manualWindows ++ buildRecurringWindows cfg now)
    now ovr

theorem mem_resolvedWindows (ws : List CustodyWindow) (now : Int) (w : CustodyWindow) :
    w ∈ resolvedWindows ws now ↔ w ∈ ws ∧ now + 60 < w.stop := by
  unfold resolvedWindows sortWindows
  rw [List.mem_filter, List.mem_insertionSort]
  simp

theorem calculate_windows (allWindows : List CustodyWindow) (now : Int)
    (ovr : Option PresenceOverride) :
    (calculate allWindows now ovr).windows = resolvedWindows allWindows now := rfl

instance : IsTotal CustodyWindow (fun a b => a.start ≤ b.start) :=
  ⟨fun a b => le_total a.start b.start⟩

instance : IsTrans CustodyWindow (fun a b => a.start ≤ b.start) :=
  ⟨fun _ _ _ hab hbc => le_trans hab hbc⟩

theorem resolvedWindows_sorted (ws : List CustodyWindow) (now : Int) :
    List.Pairwise (fun a b : CustodyWindow => a.start ≤ b.start) (resolvedWindows ws now) := by
  unfold resolvedWindows sortWindows
  apply List.Pairwise.filter
  exact List.sorted_insertionSort _ ws

theorem find?_congr_on {p q : α → Bool} :
    ∀ l : List α, (∀ x ∈ l, p x = q x) → l.find? p = l.find? q := by
  intro l
  induction l with
  | nil => intro _; rfl
  | cons a as ih =>
    intro h
    simp only [List.find?_cons]
    rw [h a (List.mem_cons_self a as)]
    split
    · rfl
    · exact ih (fun x hx => h x (List.mem_cons_of_mem a hx))

theorem nextFields_absent (windows : List CustodyWindow) (nextWindow : Option CustodyWindow)
    (os : Option Bool) (ovr : Option PresenceOverride) (now : Int)
    (h : ∀ nw, nextWindow = some nw → ¬nw.stop ≤ now + 60) :
    (nextFields windows nextWindow none os ovr false now).1 =
      nextWindow.map CustodyWindow.start := by
  rcases nextWindow with _ | nw
  · rfl
  · show (if nw.stop ≤ now + 60 then _ else (some nw.start, some nw.stop)).1 = _
    rw [if_neg (h nw rfl)]
    rfl

/-- C6 theorem: with no active override, when every window containing
`now` ends within the one-minute grace margin, no window is current,
`isPresent` is false, and `nextArrival` is the start of the first window
of the final list starting strictly after `now`. -/
theorem grace_boundary (ws : List CustodyWindow) (now : Int)
    (ovr : Option PresenceOverride) (hov : evaluateOverride ovr now = none)
    (hgrace : ∀ w ∈ ws, w.start ≤ now → now < w.stop → w.stop ≤ now + 60) :
    (calculate ws now ovr).isPresent = false ∧
    (calculate ws now ovr).currentWindow = none ∧
    (calculate ws now ovr).nextArrival =
      ((calculate ws now ovr).windows.find? (fun w => decide (now < w.start))).map
        CustodyWindow.start := by
  have hcw : currentWindowOf (resolvedWindows ws now) now = none := by
    unfold currentWindowOf
    rw [List.find?_eq_none]
    intro x hx hpred
    obtain ⟨hxws, hxstop⟩ := (mem_resolvedWindows ws now x).mp hx
    simp only [Bool.and_eq_true, decide_eq_true_eq] at hpred
    obtain ⟨⟨h1, h2⟩, h3⟩ := hpred
    exact absurd (hgrace x hxws h1 h2) (by omega)
  have hadj : calcAdjusted ws now ovr = (false, none) := by
    unfold calcAdjusted calcIsPresent0
    rw [hcw, hov]
    rfl
  have hnw : nextWindowOf (resolvedWindows ws now) now =
      (resolvedWindows ws now).find? (fun w => decide (now < w.start)) := by
    apply find?_congr_on
    intro x hx
    obtain ⟨_, hxstop⟩ := (mem_resolvedWindows ws now x).mp hx
    have hd : decide (now < x.stop) = true := by
      simp only [decide_eq_true_eq]
      omega
    rw [hd, Bool.and_true]
  refine ⟨?_, ?_, ?_⟩
  · show (calcAdjusted ws now ovr).1 = false
    rw [hadj]
  · show (calcAdjusted ws now ovr).2 = none
    rw [hadj]
  · show (calcNextFields ws now ovr).1 = _
    unfold calcNextFields
    rw [hadj, hov, calculate_windows, ← hnw]
    apply nextFields_absent
    intro nw hnwsome
    have hmem := List.mem_of_find?_eq_some (hnw ▸ hnwsome)
    obtain ⟨_, hstop⟩ := (mem_resolvedWindows ws now nw).mp hmem
    omega

/-- Windows ending within the next minute: the first ends 30 seconds
after `now = 0`. -/
def graceWindows : List CustodyWindow :=
  [{ start := -100, stop := 30, label := "Fin imminente", source := "pattern" },
   { start := 100, stop := 200, label := "Suivante", source := "pattern" }]

/-- C6 witness: at `now = 0` with a window ending at `now + 30 s`, it is
not current, presence is false and the next arrival is the following
window's start. -/
theorem grace_boundary_witness :
    (evaluateOverride none (0 : Int) = none ∧
      ∀ w ∈ graceWindows, w.start ≤ 0 → 0 < w.stop → w.stop ≤ 0 + 60) ∧
    (calculate graceWindows 0 none).isPresent = false ∧
    (calculate graceWindows 0 none).currentWindow = none ∧
    (calculate graceWindows 0 none).nextArrival =
      ((calculate graceWindows 0 none).windows.find?
        (fun w => decide ((0 : Int) < w.start))).map CustodyWindow.start :=
  ⟨⟨by decide, by decide⟩, grace_boundary graceWindows 0 none (by decide) (by decide)⟩

/-- C8 theorem (amended): the window list returned by a computation
contains exactly the merged windows (vacation display + custom +
filtered pattern + manual + recurring) ending strictly after
`now + 1 minute` — not `now − 1 day`, which only bounds the intermediate
`_build_windows` list — and is sorted ascending by start. -/
theorem resolved_window_list_contents (cfg : Config) (holidays : List SchoolHoliday)
    (now : Int) (manual : List CustodyWindow) (ovr : Option PresenceOverride) :
    (∀ w ∈ mergedWindows cfg now holidays ++ manual ++ buildRecurringWindows cfg now,
      now + 60 < w.stop → w ∈ (fullCalculate cfg holidays now manual ovr).windows) ∧
    (∀ w ∈ (fullCalculate cfg holidays now manual ovr).windows, now + 60 < w.stop) ∧
    List.Pairwise (fun a b : CustodyWindow => a.start ≤ b.start)
      (fullCalculate cfg holidays now manual ovr).windows := by
  refine ⟨?_, ?_, ?_⟩
  · intro w hw hstop
    rw [fullCalculate, calculate_windows, mem_resolvedWindows]
    refine ⟨?_, hstop⟩
    rcases List.mem_append.mp hw with hw2 | hrec
    · rcases List.mem_append.mp hw2 with hmerged | hman
      · refine List.mem_append.mpr (Or.inl (List.mem_append.mpr (Or.inl ?_)))
        rw [buildWindows, List.mem_filter]
        refine ⟨hmerged, ?_⟩
        simp only [decide_eq_true_eq]
        omega
      · exact List.mem_append.mpr (Or.inl (List.mem_append.mpr (Or.inr hman)))
    · exact List.mem_append.mpr (Or.inr hrec)
  · intro w hw
    rw [fullCalculate, calculate_windows, mem_resolvedWindows] at hw
    exact hw.2
  · rw [fullCalculate, calculate_windows]
    exact resolvedWindows_sorted _ now

/-- Default configuration (no zone, `alternate_week`, 08:00/19:00). -/
def cfgDefault : Config := {}

/-- A manual window that ended one hour before `now = 0`. -/
def pastManualWindow : CustodyWindow :=
  { start := -7200, stop := -3600, label := "Ancienne garde", source := "manual" }

/-- C8 counterexample: a merged (manual) window ending one hour ago —
strictly after `now − 1 day` — is absent from the computation's window
list, because `async_calculate` re-filters with `end > now + 1 minute`. -/
theorem stale_window_dropped_from_computation :
    pastManualWindow ∈ mergedWindows cfgDefault 0 [] ++ [pastManualWindow] ++
      buildRecurringWindows cfgDefault 0 ∧
    (0 : Int) - 86400 < pastManualWindow.stop ∧
    pastManualWindow ∉ (fullCalculate cfgDefault [] 0 [pastManualWindow] none).windows := by
  decide

/-- A manual window containing `now = 0` and ending well after it. -/
def presentManualWindow : CustodyWindow :=
  { start := -3600, stop := 7200, label := "Garde en cours", source := "manual" }

/-- C8 witness: a merged window ending after `now + 1 minute` is
retained in the computation's window list. -/
theorem resolved_window_list_contents_witness :
    (presentManualWindow ∈ mergedWindows cfgDefault 0 [] ++ [presentManualWindow] ++
        buildRecurringWindows cfgDefault 0 ∧
      (0 : Int) + 60 < presentManualWindow.stop) ∧
    presentManualWindow ∈ (fullCalculate cfgDefault [] 0 [presentManualWindow] none).windows :=
  ⟨⟨by decide, by decide⟩,
    (resolved_window_list_contents cfgDefault [] 0 [presentManualWindow] none).1
      presentManualWindow (by decide) (by decide)⟩

theorem segmentsWindows_source (arr dep : Nat) (typeLabel : String) (pointer : Int) :
    ∀ segs offsetDays w, w ∈ segmentsWindows arr dep typeLabel pointer segs offsetDays →
      w.source = "pattern" := by
  intro segs
  induction segs with
  | nil => intro offsetDays w hw; cases hw
  | cons seg rest ih =>
    intro offsetDays w hw
    simp only [segmentsWindows] at hw
    rcases List.mem_append.mp hw with hl | hr
    · split at hl
      · rw [List.mem_singleton] at hl
        subst hl
        rfl
      · cases hl
    · exact ih (offsetDays + (seg.days : Int)) w hr

theorem generatePatternWindows_source (cfg : Config) (now : Int)
    (vws : List CustodyWindow) :
    ∀ w ∈ generatePatternWindows cfg now vws, w.source = "pattern" := by
  intro w hw
  simp only [generatePatternWindows] at hw
  split_ifs at hw <;>
    first
      | (obtain ⟨p, rfl⟩ := weekendLoop_mem _ _ _ _ _ _ _ _ _ w hw; rfl)
      | (obtain ⟨p, rfl⟩ := weekParityLoop_mem _ _ _ _ _ _ _ _ _ w hw; rfl)
      | (obtain ⟨p, hp⟩ := segmentLoop_mem _ _ _ _ _ _ _ _ w hw
         exact segmentsWindows_source _ _ _ _ _ _ w hp)

/-- Decomposition of membership in the merged window list. -/
theorem mem_mergedWindows (cfg : Config) (now : Int) (holidays : List SchoolHoliday)
    (w : CustodyWindow) :
    w ∈ mergedWindows cfg now holidays ↔
      (w ∈ generateVacationWindows cfg now holidays ∧ w.source ≠ "vacation_filter") ∨
      w ∈ loadCustomRules cfg.customRules ∨
      w ∈ filterWindowsByVacations
        (generatePatternWindows cfg now (generateVacationWindows cfg now holidays))
        (generateVacationWindows cfg now holidays) := by
  simp only [mergedWindows, List.mem_append, List.mem_filter, decide_eq_true_eq]
  tauto

/-- Decomposition of membership in the computation's final window list. -/
theorem mem_fullCalculate_windows (cfg : Config) (holidays : List SchoolHoliday) (now : Int)
    (manual : List CustodyWindow) (ovr : Option PresenceOverride) (w : CustodyWindow) :
    w ∈ (fullCalculate cfg holidays now manual ovr).windows ↔
      ((w ∈ mergedWindows cfg now holidays ∧ now - 86400 < w.stop) ∨ w ∈ manual ∨
        w ∈ buildRecurringWindows cfg now) ∧ now + 60 < w.stop := by
  rw [fullCalculate, calculate_windows, mem_resolvedWindows]
  simp only [List.mem_append, buildWindows, List.mem_filter, decide_eq_true_eq]
  tauto

/-- C2: in every computation's final window list no `vacation_filter`
window appears, and no `pattern`-sourced window strictly overlaps any
vacation custody period (the windows the vacation generator emitted with
a source other than `vacation_filter`); the stored manual windows carry
source `manual` (as `set_manual_windows` guarantees). -/
theorem final_windows_no_filter_no_vacation_overlap (cfg : Config)
    (holidays : List SchoolHoliday) (now : Int) (manual : List CustodyWindow)
    (ovr : Option PresenceOverride) (hman : ∀ m ∈ manual, m.source = "manual") :
    (∀ w ∈ (fullCalculate cfg holidays now manual ovr).windows,
      w.source ≠ "vacation_filter") ∧
    (∀ w ∈ (fullCalculate cfg holidays now manual ovr).windows, w.source = "pattern" →
      ∀ v ∈ generateVacationWindows cfg now holidays, v.source ≠ "vacation_filter" →
        ¬(w.start < v.stop ∧ v.start < w.stop)) := by
  constructor
  · intro w hw
    obtain ⟨hsrcs, _⟩ := (mem_fullCalculate_windows cfg holidays now manual ovr w).mp hw
    rcases hsrcs with ⟨hmerged, _⟩ | hman2 | hrec
    · rcases (mem_mergedWindows cfg now holidays w).mp hmerged with ⟨_, hne⟩ | hcust | hpat
      · exact hne
      · rw [(loadCustomRules_source_valid _ w hcust).1]
        decide
      · rw [generatePatternWindows_source cfg now _ w
          ((mem_filterWindowsByVacations _ _ w).mp hpat).1]
        decide
    · rw [hman w hman2]
      decide
    · rw [(buildRecurringWindows_source_valid cfg now w hrec).1]
      decide
  · intro w hw hpat v hv hvsrc hover
    obtain ⟨hsrcs, _⟩ := (mem_fullCalculate_windows cfg holidays now manual ovr w).mp hw
    rcases hsrcs with ⟨hmerged, _⟩ | hman2 | hrec
    · rcases (mem_mergedWindows cfg now holidays w).mp hmerged with ⟨hvac, hne⟩ | hcust | hpmem
      · rcases generateVacationWindows_source cfg now holidays w hvac with h1 | h1 | h1
        · exact absurd h1 hne
        · rw [h1] at hpat
          exact absurd hpat (by decide)
        · rw [h1] at hpat
          exact absurd hpat (by decide)
      · rw [(loadCustomRules_source_valid _ w hcust).1] at hpat
        exact absurd hpat (by decide)
      · exact ((mem_filterWindowsByVacations _ _ w).mp hpmem).2 v hv hvsrc hover
    · rw [hman w hman2] at hpat
      exact absurd hpat (by decide)
    · rw [(buildRecurringWindows_source_valid cfg now w hrec).1] at hpat
      exact absurd hpat (by decide)

/-- Alternate-week custody anchored to even years, vacations anchored to
odd years, school pickup at 16:15 and return at 19:00, zone C. -/
def cfgAlternateWeek : Config :=
  { custodyType := "alternate_week", referenceYearCustody := "even",
    referenceYearVacations := "odd", arrivalTime := 975, departureTime := 1140,
    zone := some "C", vacationSplitMode := "odd_first" }

/-- Christmas break 2025: 20 December 2025 to 5 January 2026 (exclusive
resume midnight). -/
def noel2025 : SchoolHoliday :=
  { name := "Vacances de Noel"
    start := daysFromCivil 2025 12 20 * 86400
    stop := daysFromCivil 2026 1 5 * 86400 }

/-- Evaluation instant 17 December 2025, 22:00. -/
def nowDec2025 : Int := daysFromCivil 2025 12 17 * 86400 + 79200

/-- C2 witness: the Christmas-break computation (which does emit
vacation windows) satisfies the invariant. -/
theorem final_windows_no_filter_no_vacation_overlap_witness :
    (∀ m ∈ ([] : List CustodyWindow), m.source = "manual") ∧
    (∀ w ∈ (fullCalculate cfgAlternateWeek [noel2025] nowDec2025 [] none).windows,
      w.source ≠ "vacation_filter") ∧
    (∀ w ∈ (fullCalculate cfgAlternateWeek [noel2025] nowDec2025 [] none).windows,
      w.source = "pattern" →
      ∀ v ∈ generateVacationWindows cfgAlternateWeek nowDec2025 [noel2025],
        v.source ≠ "vacation_filter" → ¬(w.start < v.stop ∧ v.start < w.stop)) :=
  ⟨by simp,
    final_windows_no_filter_no_vacation_overlap cfgAlternateWeek [noel2025] nowDec2025 [] none
      (by simp)⟩

/-- C1 theorem (amended): a generated pattern window appears in the
computation's final window list exactly when it strictly overlaps no
emitted vacation *custody* window and ends after `now + 1 minute`;
overlap with a `vacation_filter` span alone does not remove it, so
pattern windows inside a holiday's effective span but outside the
emitted custody sub-window are kept. -/
theorem pattern_window_in_final_iff (cfg : Config) (holidays : List SchoolHoliday) (now : Int)
    (manual : List CustodyWindow) (ovr : Option PresenceOverride)
    (hman : ∀ m ∈ manual, m.source ≠ "pattern") :
    ∀ w ∈ generatePatternWindows cfg now (generateVacationWindows cfg now holidays),
      (w ∈ (fullCalculate cfg holidays now manual ovr).windows ↔
        (∀ v ∈ generateVacationWindows cfg now holidays, v.source ≠ "vacation_filter" →
          ¬(w.start < v.stop ∧ v.start < w.stop)) ∧ now + 60 < w.stop) := by
  intro w hwpat
  have hwsrc : w.source = "pattern" := generatePatternWindows_source cfg now _ w hwpat
  constructor
  · intro hw
    obtain ⟨hsrcs, hstop⟩ := (mem_fullCalculate_windows cfg holidays now manual ovr w).mp hw
    refine ⟨?_, hstop⟩
    rcases hsrcs with ⟨hmerged, _⟩ | hman2 | hrec
    · rcases (mem_mergedWindows cfg now holidays w).mp hmerged with ⟨hvac, hne⟩ | hcust | hpmem
      · exfalso
        rcases generateVacationWindows_source cfg now holidays w hvac with h1 | h1 | h1 <;>
          rw [hwsrc] at h1 <;> exact absurd h1 (by decide)
      · exfalso
        have hc := (loadCustomRules_source_valid _ w hcust).1
        rw [hwsrc] at hc
        exact absurd hc (by decide)
      · exact ((mem_filterWindowsByVacations _ _ w).mp hpmem).2
    · exact absurd hwsrc (hman w hman2)
    · exfalso
      have hc := (buildRecurringWindows_source_valid cfg now w hrec).1
      rw [hwsrc] at hc
      exact absurd hc (by decide)
  · rintro ⟨hno, hstop⟩
    refine (mem_fullCalculate_windows cfg holidays now manual ovr w).mpr ⟨?_, hstop⟩
    refine Or.inl ⟨?_, by omega⟩
    exact (mem_mergedWindows cfg now holidays w).mpr
      (Or.inr (Or.inr ((mem_filterWindowsByVacations _ _ w).mpr ⟨hwpat, hno⟩)))

/-- C1 counterexample: in the Christmas-break computation the final list
contains a pattern window (29 December 16:15 → 4 January 19:00) that lies
inside — and strictly overlaps — the holiday's `vacation_filter` span
`[effectiveStart, effectiveEnd)`, because only the first half of the
break was emitted as the vacation custody window and the code filters
against custody windows, not filter windows. -/
theorem pattern_window_inside_filter_span_survives :
    ((fullCalculate cfgAlternateWeek [noel2025] nowDec2025 [] none).windows.any (fun w =>
      w.source == "pattern" &&
        (generateVacationWindows cfgAlternateWeek nowDec2025 [noel2025]).any (fun v =>
          v.source == "vacation_filter" && decide (v.start ≤ w.start) &&
            decide (w.stop ≤ v.stop) && decide (w.start < v.stop) &&
            decide (v.start < w.stop)))) = true := by decide

/-- C1 witness: the membership characterization instantiated on the
Christmas-break computation. -/
theorem pattern_window_in_final_iff_witness :
    (∀ m ∈ ([] : List CustodyWindow), m.source ≠ "pattern") ∧
    (∀ w ∈ generatePatternWindows cfgAlternateWeek nowDec2025
        (generateVacationWindows cfgAlternateWeek nowDec2025 [noel2025]),
      (w ∈ (fullCalculate cfgAlternateWeek [noel2025] nowDec2025 [] none).windows ↔
        (∀ v ∈ generateVacationWindows cfgAlternateWeek nowDec2025 [noel2025],
          v.source ≠ "vacation_filter" → ¬(w.start < v.stop ∧ v.start < w.stop)) ∧
          nowDec2025 + 60 < w.stop)) :=
  ⟨by simp,
    pattern_window_in_final_iff cfgAlternateWeek [noel2025] nowDec2025 [] none (by simp)⟩

/-- C3 theorem (amended): every window in the computation's final list
has `end > start` (given well-formed arrival time and stored manual
windows, which `set_manual_windows` guarantees).  The amendment is
needed because `vacation_filter` windows — which never reach the final
list — can be inverted for degenerate holiday input, see the
counterexample. -/
theorem output_windows_valid (cfg : Config) (holidays : List SchoolHoliday) (now : Int)
    (manual : List CustodyWindow) (ovr : Option PresenceOverride)
    (hA : cfg.arrivalTime < 1440) (hman : ∀ m ∈ manual, m.start < m.stop) :
    ∀ w ∈ (fullCalculate cfg holidays now manual ovr).windows, w.start < w.stop := by
  intro w hw
  obtain ⟨hsrcs, _⟩ := (mem_fullCalculate_windows cfg holidays now manual ovr w).mp hw
  rcases hsrcs with ⟨hmerged, _⟩ | hman2 | hrec
  · rcases (mem_mergedWindows cfg now holidays w).mp hmerged with ⟨hvac, hne⟩ | hcust | hpmem
    · exact generateVacationWindows_valid cfg now holidays w hvac hne
    · exact (loadCustomRules_source_valid _ w hcust).2
    · exact (generatePatternWindows_source_valid cfg now _ hA w
        ((mem_filterWindowsByVacations _ _ w).mp hpmem).1).2
  · exact hman w hman2
  · exact (buildRecurringWindows_source_valid cfg now w hrec).2

/-- Configuration with only a zone set (all other options default). -/
def cfgZoneOnly : Config := { zone := some "A" }

/-- C3 counterexample: on a holiday whose raw end precedes its raw start
the vacation generator emits a `vacation_filter` window with
`end < start`, so not every generated window satisfies `end > start`,
whatever the configured times. -/
theorem vacation_filter_window_inverted :
    ((generateVacationWindows cfgZoneOnly 0 [invertedHoliday]).any (fun w =>
      w.source == "vacation_filter" && decide (w.stop < w.start))) = true := by decide

/-- C3 witness: interval validity of the final list on a computation
with a manual window. -/
theorem output_windows_valid_witness :
    (cfgDefault.arrivalTime < 1440 ∧
      ∀ m ∈ [presentManualWindow], m.start < m.stop) ∧
    ∀ w ∈ (fullCalculate cfgDefault [] 0 [presentManualWindow] none).windows,
      w.start < w.stop :=
  ⟨⟨by decide, by decide⟩,
    output_windows_valid cfgDefault [] 0 [presentManualWindow] none (by decide) (by decide)⟩

end Custody
